import Mathlib

/- Shallow embedding of the Intelligent Secure Backup System DLP core
   (app/utils/dlp.py), its crypto helpers (app/utils/crypto_utils.py),
   the redaction/backup pipeline (app/routes/backup_routes.py) and the
   scan endpoint (app/main.py).

   Text is modelled as `List Char`, Python floats as exact rationals
   (`Rat`), Python `round` as round-half-to-even on rationals, and the
   `re` matching of each fixed pattern of dlp.py is implemented by a
   specialised matcher.  Next to each matcher a comment argues why it
   computes exactly the non-overlapping, leftmost, greedy/lazy matches
   that CPython `finditer` produces for that pattern (on the ASCII
   character classes the patterns use). -/

namespace DLP

/-- Python `\d` (digit character), ASCII. -/
def isDigitCh (c : Char) : Bool := c.isDigit

/-- Python `\w` (word character) as used by `\b` word boundaries, ASCII. -/
def isWordCh (c : Char) : Bool := c.isAlphanum || c = '_'

/-- The separator class `[ -]` of the credit-card pattern `CC_RE`. -/
def isSepCh (c : Char) : Bool := c = ' ' || c = '-'

/-- Python `\s` (whitespace), ASCII subset. -/
def isSpaceCh (c : Char) : Bool :=
  c = ' ' || c = '\t' || c = '\n' || c = '\r' || c = '\x0b' || c = '\x0c'

/-- `str.lower()` on a character list. -/
def lowerStr (cs : List Char) : List Char := cs.map Char.toLower

/-- Python substring test `needle in hay`. -/
def containsSub (needle : List Char) : List Char → Bool
  | [] => needle.isPrefixOf ([] : List Char)
  | c :: t => needle.isPrefixOf (c :: t) || containsSub needle t

/-- An optional character fails a `\b` boundary test iff it is a word
    character; the edge of the text (`none`) always gives a boundary. -/
def boundaryOK : Option Char → Bool
  | none => true
  | some c => !isWordCh c

/-- Python `round` on a rational: round half to even (banker's rounding),
    which is what `round(float)` does in Python 3; float representation
    error is idealised away by computing on exact rationals. -/
def pyRound (q : ℚ) : ℤ :=
  let f : ℤ := ⌊q⌋
  let r : ℚ := q - (f : ℚ)
  if r < 1/2 then f
  else if 1/2 < r then f + 1
  else if f % 2 = 0 then f else f + 1

/-- Python `round(x, 3)` idealised on rationals. -/
def pyRound3 (q : ℚ) : ℚ := ((pyRound (q * 1000) : ℚ)) / 1000

/- ---------------------------------------------------------------
   Maximal digit runs and the digit-run detectors.

   AADHAAR_RE = `\b\d{12}\b`, BANK_AC_RE = `\b\d{9,18}\b` and
   CVV_RE = `\b\d{3,4}\b` all have the shape `\b\d{lo,hi}\b`.
   For such a pattern a match attempt can only succeed at the start of
   a maximal digit run whose preceding character is non-word (inside a
   run, `\b` fails between two digits), the greedy counter then takes
   the whole run when `lo <= len <= hi` (backing off is useless: the
   following character would be a digit, a word character, so the
   closing `\b` fails for every shorter count), and the closing `\b`
   holds iff the character after the run is non-word or the text ends.
   Hence: the matches of `\b\d{lo,hi}\b` are exactly the maximal digit
   runs with non-word neighbours and length in `[lo, hi]`, each matched
   in full, and they are pairwise disjoint, so non-overlapping
   left-to-right scanning returns all of them.  `runsGo` walks the text
   once and emits each maximal run with its start offset and the
   two-sided boundary flag. ---------------------------------------------------------------- -/

def runsGo : Option Char → Nat → List Char → List (Nat × List Char × Bool)
  | _, _, [] => []
  | prev, i, c :: rest =>
    if isDigitCh c then
      if (prev.map isDigitCh).getD false then
        -- inside a run whose record was already emitted at its start
        runsGo (some c) (i + 1) rest
      else
        let run := c :: rest.takeWhile isDigitCh
        let okL := boundaryOK prev
        let rest2 := rest.dropWhile isDigitCh
        let okR := boundaryOK rest2.head?
        (i, run, okL && okR) :: runsGo (some c) (i + 1) rest
    else
      runsGo (some c) (i + 1) rest

/-- The maximal digit runs of a text: start offset, run, and whether the
    run has `\b` boundaries on both sides. -/
def digitRuns (cs : List Char) : List (Nat × List Char × Bool) := runsGo none 0 cs

/-- Matches of `\b\d{lo,hi}\b` (see the argument above `runsGo`):
    start offset and matched digits. -/
def runMatches (lo hi : Nat) (cs : List Char) : List (Nat × List Char) :=
  (digitRuns cs).filterMap (fun e =>
    if e.2.2 && decide (lo ≤ e.2.1.length) && decide (e.2.1.length ≤ hi)
    then some (e.1, e.2.1) else none)

/- ---------------------------------------------------------------
   _luhn_check (dlp.py lines 58-70): strip non-digits, require 13..19
   digits, double every second digit from the position with
   `i % 2 == len % 2`, subtract 9 from doubled digits above 9, and
   require the sum to be divisible by 10. ---------------------------------------------------------------- -/

def luhn_check (t : List Char) : Bool :=
  let digits := (t.filter isDigitCh).map (fun c => c.toNat - ('0').toNat)
  if digits.length < 13 || 19 < digits.length then false
  else
    let parity := digits.length % 2
    let checksum := (digits.enum.map (fun p =>
      if p.1 % 2 = parity then
        let d2 := p.2 * 2
        if d2 > 9 then d2 - 9 else d2
      else p.2)).foldl (· + ·) 0
    checksum % 10 = 0

/- ---------------------------------------------------------------
   Generic left-to-right scanner used by the remaining detectors.

   `tryAt prev suffix` attempts a match of one pattern at the position
   whose preceding character is `prev` (none at the text start), on the
   given suffix; it returns `some (n, token)` when the pattern matches
   there consuming `n` characters and producing `token` (for most
   patterns the matched text itself; for PASSWORD_RE its group 2).
   `scanGo` reproduces `finditer`: it tries every position from left to
   right, emits each match with its span, and resumes scanning at the
   end of the matched span (non-overlapping matches).  All patterns
   below only ever match non-empty spans, so the `max 1 _` guard that
   makes the skip count structurally positive never changes behaviour. ---------------------------------------------------------------- -/

def scanGo (tryAt : Option Char → List Char → Option (Nat × List Char)) :
    Nat → Option Char → Nat → List Char → List (Nat × Nat × List Char)
  | _ + 1, _, _, [] => []
  | skip + 1, _, i, c :: rest => scanGo tryAt skip (some c) (i + 1) rest
  | 0, _, _, [] => []
  | 0, prev, i, c :: rest =>
    match tryAt prev (c :: rest) with
    | some (n, tok) =>
        (i, i + max 1 n, tok) :: scanGo tryAt (max 1 n - 1) (some c) (i + 1) rest
    | none => scanGo tryAt 0 (some c) (i + 1) rest

/-- All matches of one pattern, as (start, stop, token) triples. -/
def scanAll (tryAt : Option Char → List Char → Option (Nat × List Char))
    (cs : List Char) : List (Nat × Nat × List Char) :=
  scanGo tryAt 0 none 0 cs

/- ---------------------------------------------------------------
   Fixed-shape patterns PAN_RE = `\b[A-Z]{5}[0-9]{4}[A-Z]\b`,
   IFSC_RE = `\b[A-Z]{4}0[A-Z0-9]{6}\b`, PASSPORT_RE = `\b[A-Z][0-9]{7}\b`.
   Each is a fixed-length sequence of single-character classes between
   two word boundaries, so a match attempt at a position is a simple
   character-by-character test with a boundary check on each side. ---------------------------------------------------------------- -/

def isUpperCh (c : Char) : Bool := 'A' ≤ c && c ≤ 'Z'

def matchTmpl : List (Char → Bool) → List Char → Option (List Char × List Char)
  | [], u => some ([], u)
  | _ :: _, [] => none
  | t :: ts, c :: u =>
      if t c then (matchTmpl ts u).map (fun p => (c :: p.1, p.2)) else none

def tmplTryAt (tmpl : List (Char → Bool)) (prev : Option Char) (u : List Char) :
    Option (Nat × List Char) :=
  if boundaryOK prev then
    match matchTmpl tmpl u with
    | some (m, rest) => if boundaryOK rest.head? then some (m.length, m) else none
    | none => none
  else none

def panTmpl : List (Char → Bool) :=
  [isUpperCh, isUpperCh, isUpperCh, isUpperCh, isUpperCh,
   isDigitCh, isDigitCh, isDigitCh, isDigitCh, isUpperCh]

def ifscTmpl : List (Char → Bool) :=
  [isUpperCh, isUpperCh, isUpperCh, isUpperCh, (fun c => c = '0'),
   (fun c => isUpperCh c || isDigitCh c), (fun c => isUpperCh c || isDigitCh c),
   (fun c => isUpperCh c || isDigitCh c), (fun c => isUpperCh c || isDigitCh c),
   (fun c => isUpperCh c || isDigitCh c), (fun c => isUpperCh c || isDigitCh c)]

def passportTmpl : List (Char → Bool) :=
  [isUpperCh, isDigitCh, isDigitCh, isDigitCh, isDigitCh,
   isDigitCh, isDigitCh, isDigitCh]

/- ---------------------------------------------------------------
   Credit-card pattern CC_RE = `\b(?:\d[ -]*?){13,19}\b`.

   A match attempt can only start at a digit preceded by a non-word
   character (the leading `\b` plus the first `\d`).  While the greedy
   counter is below its minimum of 13, each failed `\d` forces the lazy
   `[ -]*?` of the previous unit to expand, so the first 13 digits are
   collected crossing arbitrary separator runs (failing if fewer than 13
   digits are reachable this way).  Once 13 units have matched, the
   greedy counter prefers another unit, which succeeds only when the
   very next character is a digit (a separator makes the new `\d` fail,
   and the engine then pops the most recent backtrack point, which is
   the counter's exit, BEFORE re-expanding the older lazy star): so
   digits 14..19 are taken only while they are adjacent.  The counter
   exits at the current count `k` and the trailing `\b` holds iff the
   character right after the k-th digit is non-word or the text ends; if
   that character is a word character the exit fails, and every fallback
   (smaller counts, whose next characters are adjacent digits; star
   expansions, which are all saturated) fails too, so the whole attempt
   fails.  The matched span runs from the start digit to the k-th digit
   (lazy stars never consume trailing separators), and the token the
   code stores is `re.sub("[ -]", "", group(0))`, i.e. exactly the k
   collected digits.

   `ccNeedDigits n u` collects the next `n` digits crossing separator
   runs; `ccTryAt` implements the match attempt just described. ---------------------------------------------------------------- -/

def ccNeedDigits : Nat → List Char → Option (List Char × List Char)
  | 0, u => some ([], u)
  | n + 1, u =>
    match u.dropWhile isSepCh with
    | [] => none
    | c :: v =>
      if isDigitCh c then (ccNeedDigits n v).map (fun p => (c :: p.1, p.2)) else none

def ccTryAt (prev : Option Char) (u : List Char) : Option (Nat × List Char) :=
  if boundaryOK prev && (u.head?.map isDigitCh).getD false then
    match ccNeedDigits 13 u with
    | none => none
    | some (ds, suf) =>
      let ext := suf.takeWhile isDigitCh
      let e := min 6 ext.length
      let tok := ds ++ ext.take e
      let after := suf.drop e
      if boundaryOK after.head? then some (u.length - after.length, tok) else none
  else none

/- ---------------------------------------------------------------
   EMAIL_RE = `[A-Za-z0-9._%+-]+@[A-Za-z0-9.-]+\.[A-Za-z]{2,}`.

   There is no word boundary.  At a position starting with a local-part
   character, the greedy `+` takes the maximal run of local characters;
   the '@' must be the very next character (shrinking the run only
   exposes more local characters, never '@', so backtracking the run is
   useless).  After '@' the greedy domain `+` takes the maximal run of
   domain characters and gives back as little as possible, i.e. the
   literal dot is placed at the LAST '.' of that run that has at least
   one domain character before it (inside the run) and at least two
   letters right after it; the trailing `[A-Za-z]{2,}` then greedily
   takes the maximal letter run after that dot (letters are domain
   characters, so it cannot extend past the run).  Failing that, the
   attempt fails and scanning moves one position right, exactly like
   the engine. ---------------------------------------------------------------- -/

def isLocalCh (c : Char) : Bool :=
  c.isAlphanum || c = '.' || c = '_' || c = '%' || c = '+' || c = '-'

def isDomainCh (c : Char) : Bool := c.isAlphanum || c = '.' || c = '-'

def emailTryAt (_prev : Option Char) (u : List Char) : Option (Nat × List Char) :=
  if (u.head?.map isLocalCh).getD false then
    let lRun := u.takeWhile isLocalCh
    match u.drop lRun.length with
    | '@' :: v =>
      let dRun := v.takeWhile isDomainCh
      match (List.range dRun.length).reverse.find? (fun p =>
          decide (1 ≤ p) && (dRun.get? p == some '.') &&
          decide (2 ≤ ((dRun.drop (p + 1)).takeWhile Char.isAlpha).length)) with
      | some p =>
        let tld := ((dRun.drop (p + 1)).takeWhile Char.isAlpha).length
        let n := lRun.length + 1 + p + 1 + tld
        some (n, u.take n)
      | none => none
    | _ => none
  else none

/- ---------------------------------------------------------------
   PHONE_RE = `(?:\+91[\-\s]?|0)?[6-9]\d{9}\b`.

   No leading boundary.  The optional group is greedy and its
   alternatives are tried in written order: first `+91` followed by an
   optional (greedy) separator, then `0`, then nothing; after the
   prefix, one digit in [6-9], nine more digits, and a closing `\b`.
   On failure the engine falls through to the next alternative at the
   same position. ---------------------------------------------------------------- -/

def isPhoneHead (c : Char) : Bool := '6' ≤ c && c ≤ '9'

/-- Matches `[6-9]\d{9}\b` at the head of `u`; returns the digits. -/
def phoneCore (u : List Char) : Option (List Char) :=
  match u with
  | c :: v =>
    if isPhoneHead c then
      let ds := v.take 9
      if ds.length = 9 && ds.all isDigitCh && boundaryOK (v.drop 9).head?
      then some (c :: ds) else none
    else none
  | [] => none

def phoneTryAt (_prev : Option Char) (u : List Char) : Option (Nat × List Char) :=
  match u with
  | '+' :: '9' :: '1' :: v =>
    (match v with
     | s :: w =>
       if s = '-' || isSpaceCh s then
         match phoneCore w with
         | some core => some (14, '+' :: '9' :: '1' :: s :: core)
         | none =>
           match phoneCore v with
           | some core2 => some (13, '+' :: '9' :: '1' :: core2)
           | none => none
       else
         match phoneCore v with
         | some core2 => some (13, '+' :: '9' :: '1' :: core2)
         | none => none
     | [] => none) <|>
    (match phoneCore u with
     | some core3 => some (10, core3)
     | none => none)
  | '0' :: v =>
    (match phoneCore v with
     | some core => some (11, '0' :: core)
     | none => none) <|>
    (match phoneCore u with
     | some core => some (10, core)
     | none => none)
  | _ =>
    match phoneCore u with
    | some core => some (10, core)
    | none => none

/- ---------------------------------------------------------------
   PASSWORD_RE =
   `(password|passwd|pwd|passcode|pass:)\s*[:#\-]?\s*([^\s,;]{4,40})`,
   IGNORECASE; the emitted token is group 2.

   The label alternatives are tried in written order (case-insensitive).
   After the label, the greedy `\s*` takes the maximal whitespace run;
   making it shorter only exposes whitespace to `[:#\-]?` and to the
   value class (which excludes whitespace), so the only meaningful
   backtracking choice is whether the optional punctuation character is
   taken (greedily tried first) or not, in which case the second `\s*`
   is empty and the value starts at the punctuation character itself
   (':', '#', '-' are all valid value characters).  The value is the
   greedy `{4,40}` take of the maximal run of non-space/comma/semicolon
   characters, at most 40, failing below 4. ---------------------------------------------------------------- -/

def isValueCh (c : Char) : Bool := !(isSpaceCh c || c = ',' || c = ';')

def ciPrefixOf : List Char → List Char → Bool
  | [], _ => true
  | _ :: _, [] => false
  | a :: as2, b :: bs => a.toLower = b.toLower && ciPrefixOf as2 bs

/-- After the label: `\s*[:#\-]?\s*([^\s,;]{4,40})` on suffix `r`;
    returns (consumed, group 2). -/
def passwordRest (r : List Char) : Option (Nat × List Char) :=
  let w := r.dropWhile isSpaceCh
  let s1 := r.length - w.length
  (match w with
   | p :: w1 =>
     if p = ':' || p = '#' || p = '-' then
       let w2 := w1.dropWhile isSpaceCh
       let s2 := w1.length - w2.length
       let run := w2.takeWhile isValueCh
       let v := run.take 40
       if 4 ≤ v.length then some (s1 + 1 + s2 + v.length, v) else none
     else none
   | [] => none) <|>
  (let run := w.takeWhile isValueCh
   let v := run.take 40
   if 4 ≤ v.length then some (s1 + v.length, v) else none)

def passwordLabels : List (List Char) :=
  [("password").toList, ("passwd").toList, ("pwd").toList,
   ("passcode").toList, ("pass:").toList]

def passwordTryAtLabels : List (List Char) → List Char → Option (Nat × List Char)
  | [], _ => none
  | lab :: labs, u =>
    (if ciPrefixOf lab u then
       match passwordRest (u.drop lab.length) with
       | some (n, v) => some (lab.length + n, v)
       | none => none
     else none) <|> passwordTryAtLabels labs u

def passwordTryAt (_prev : Option Char) (u : List Char) : Option (Nat × List Char) :=
  passwordTryAtLabels passwordLabels u

/- ---------------------------------------------------------------
   _find_snippets (dlp.py lines 81-88): for each span, take the slice
   40 characters around it, replace newlines by spaces, and strip. ---------------------------------------------------------------- -/

def stripWs (cs : List Char) : List Char :=
  ((cs.dropWhile isSpaceCh).reverse.dropWhile isSpaceCh).reverse

def find_snippets (text : List Char) (spans : List (Nat × Nat)) : List (List Char) :=
  spans.map (fun se =>
    let s := se.1 - 40
    let e := min text.length (se.2 + 40)
    stripWs (((text.drop s).take (e - s)).map
      (fun c => if c = '\n' || c = '\r' then ' ' else c)))

/- ---------------------------------------------------------------
   Keyword heuristic, hybrid context score (dlp.py lines 48-53 and
   132-145).  The optional AI / ML signals require external model
   collaborators (sentence_transformers, joblib artifact), so they are
   parameters of the embedding; when the libraries are missing the code
   contributes 0.0 for both. ---------------------------------------------------------------- -/

def SENSITIVE_KEYWORDS : List (List Char) :=
  [("aadhaar").toList, ("pan").toList, ("credit card").toList,
   ("card number").toList, ("cvv").toList, ("upi").toList,
   ("password").toList, ("pwd").toList, ("passport").toList,
   ("passport no").toList, ("bank account").toList,
   ("account number").toList, ("ifsc").toList, ("salary").toList,
   ("payroll").toList, ("ssn").toList, ("social security").toList,
   ("secret").toList, ("confidential").toList]

def kwCount (text : List Char) : Nat :=
  (SENSITIVE_KEYWORDS.filter (fun kw => containsSub kw (lowerStr text))).length

def context_score (ai ml : List Char → ℚ) (text : List Char) : ℚ :=
  let hScore : ℚ := min 1 ((kwCount text : ℚ) / 6)
  min (3/10 * hScore + 2/5 * ai text + 3/10 * ml text) 1

/- ---------------------------------------------------------------
   Risk scoring (dlp.py lines 150-172). ---------------------------------------------------------------- -/

/-- `conf_map.get(confidence, 0)` for `{"low": 0, "medium": 10, "high": 20}`. -/
def confBoost (conf : String) : ℤ :=
  if conf = "low" then 0
  else if conf = "medium" then 10
  else if conf = "high" then 20
  else 0

def compute_risk_score (hits : List (String × List (List Char)))
    (conf : String) (ctx : ℚ) : ℤ :=
  let base : ℤ := 20 * hits.length
  max 0 (min 100 (pyRound (((base + confBoost conf : ℤ) : ℚ) * (1 + ctx))))

def risk_label (score : ℤ) : String :=
  if 70 ≤ score then "High" else if 35 ≤ score then "Medium" else "Low"

/- ---------------------------------------------------------------
   The detectors of scan_file (dlp.py lines 185-245), with their spans. ---------------------------------------------------------------- -/

def aadhaarDet (text : List Char) : List (Nat × List Char) := runMatches 12 12 text

def bankDet (text : List Char) : List (Nat × List Char) := runMatches 9 18 text

def cvvAll (text : List Char) : List (Nat × List Char) := runMatches 3 4 text

/-- The 10-characters-around window test of the CVV special handling
    (dlp.py lines 224-228): `text[max(0, s-10) : e+10].lower()` must
    contain "cvv" or "card". -/
def cvvWindowOK (text : List Char) (s e : Nat) : Bool :=
  let lo := s - 10
  let snip := lowerStr ((text.drop lo).take (e + 10 - lo))
  containsSub (("cvv").toList) snip || containsSub (("card").toList) snip

def cvvDet (text : List Char) : List (Nat × List Char) :=
  (cvvAll text).filter (fun m => cvvWindowOK text m.1 (m.1 + m.2.length))

def panDet (text : List Char) : List (Nat × Nat × List Char) :=
  scanAll (tmplTryAt panTmpl) text

def ifscDet (text : List Char) : List (Nat × Nat × List Char) :=
  scanAll (tmplTryAt ifscTmpl) text

def passportDet (text : List Char) : List (Nat × Nat × List Char) :=
  scanAll (tmplTryAt passportTmpl) text

def emailDet (text : List Char) : List (Nat × Nat × List Char) := scanAll emailTryAt text

def phoneDet (text : List Char) : List (Nat × Nat × List Char) := scanAll phoneTryAt text

def passwordDet (text : List Char) : List (Nat × Nat × List Char) :=
  scanAll passwordTryAt text

def ccAllDet (text : List Char) : List (Nat × Nat × List Char) := scanAll ccTryAt text

/-- Luhn-valid credit-card matches (dlp.py lines 238-242); the token of
    a `ccTryAt` match is already the separator-stripped digit list. -/
def ccDet (text : List Char) : List (Nat × Nat × List Char) :=
  (ccAllDet text).filter (fun m => luhn_check m.2.2)

def aadhaarToks (text : List Char) : List (List Char) := (aadhaarDet text).map (fun m => m.2)
def bankToks (text : List Char) : List (List Char) := (bankDet text).map (fun m => m.2)
def cvvToks (text : List Char) : List (List Char) := (cvvDet text).map (fun m => m.2)
def panToks (text : List Char) : List (List Char) := (panDet text).map (fun m => m.2.2)
def ifscToks (text : List Char) : List (List Char) := (ifscDet text).map (fun m => m.2.2)
def passportToks (text : List Char) : List (List Char) := (passportDet text).map (fun m => m.2.2)
def emailToks (text : List Char) : List (List Char) := (emailDet text).map (fun m => m.2.2)
def phoneToks (text : List Char) : List (List Char) := (phoneDet text).map (fun m => m.2.2)
def passwordToks (text : List Char) : List (List Char) := (passwordDet text).map (fun m => m.2.2)
def ccToks (text : List Char) : List (List Char) := (ccDet text).map (fun m => m.2.2)

/-- A detector entry is inserted in the hits dict only when its match
    list is non-empty (`if m:` in the code). -/
def hitBlock (n : String) (toks : List (List Char)) : List (String × List (List Char)) :=
  if toks = [] then [] else [(n, toks)]

/-- The hits mapping of scan_file, in source insertion order. -/
def hitsOf (text : List Char) : List (String × List (List Char)) :=
  hitBlock ("aadhaar") (aadhaarToks text) ++
  hitBlock ("pan") (panToks text) ++
  hitBlock ("email") (emailToks text) ++
  hitBlock ("phone") (phoneToks text) ++
  hitBlock ("passport") (passportToks text) ++
  hitBlock ("password") (passwordToks text) ++
  hitBlock ("bank_account") (bankToks text) ++
  hitBlock ("ifsc") (ifscToks text) ++
  hitBlock ("cvv") (cvvToks text) ++
  hitBlock ("credit_card") (ccToks text)

def snipBlock (n : String) (text : List Char) (toks : List (List Char))
    (spans : List (Nat × Nat)) : List (String × List (List Char)) :=
  if toks = [] then [] else [(n, find_snippets text spans)]

def runSpans (ms : List (Nat × List Char)) : List (Nat × Nat) :=
  ms.map (fun m => (m.1, m.1 + m.2.length))

def scanSpans (ms : List (Nat × Nat × List Char)) : List (Nat × Nat) :=
  ms.map (fun m => (m.1, m.2.1))

/-- The snippets mapping of scan_file (inserted under the same guard as
    the corresponding hits entry). -/
def snipsOf (text : List Char) : List (String × List (List Char)) :=
  snipBlock ("aadhaar") text (aadhaarToks text) (runSpans (aadhaarDet text)) ++
  snipBlock ("pan") text (panToks text) (scanSpans (panDet text)) ++
  snipBlock ("email") text (emailToks text) (scanSpans (emailDet text)) ++
  snipBlock ("phone") text (phoneToks text) (scanSpans (phoneDet text)) ++
  snipBlock ("passport") text (passportToks text) (scanSpans (passportDet text)) ++
  snipBlock ("password") text (passwordToks text) (scanSpans (passwordDet text)) ++
  snipBlock ("bank_account") text (bankToks text) (runSpans (bankDet text)) ++
  snipBlock ("ifsc") text (ifscToks text) (scanSpans (ifscDet text)) ++
  snipBlock ("cvv") text (cvvToks text) (runSpans (cvvDet text)) ++
  snipBlock ("credit_card") text (ccToks text) (scanSpans (ccDet text))

/-- The per-file finding returned by scan_file (dlp.py lines 265-272). -/
structure Finding where
  hits : List (String × List (List Char))
  snippets : List (String × List (List Char))
  confidence : String
  context_score : ℚ
  risk_score : ℤ
  risk_label : String
deriving DecidableEq

/-- The finding dict scan_file builds for a non-empty text (dlp.py lines
    247-272): the confidence heuristic, the hybrid context score, the
    forced-zero risk when there are no hits, and the returned record. -/
def findingOf (ai ml : List Char → ℚ) (text : List Char) : Finding :=
  let hits := hitsOf text
  let conf := if hits = [] then "low"
              else if 2 ≤ kwCount text then "high" else "medium"
  let ctx := context_score ai ml text
  let risk : ℤ := if hits = [] then 0 else compute_risk_score hits conf ctx
  let label := if hits = [] then "Low" else risk_label risk
  ⟨hits, snipsOf text, conf, pyRound3 ctx, risk, label⟩

/- scan_file (dlp.py lines 177-272).  `_read_file_safe` returns "" both
   for an empty file and for any read error, and `scan_file` returns {}
   exactly when the text is empty (line 180); the file content is taken
   as input here, empty meaning unreadable-or-empty.  The AI/ML context
   signals are the `ai`/`ml` parameters (0 when the optional libraries
   are absent). -/
def scan_file (ai ml : List Char → ℚ) (text : List Char) : Option Finding :=
  if text = [] then none else some (findingOf ai ml text)

/- ---------------------------------------------------------------
   scan_directory (dlp.py lines 278-295) and the /scan endpoint
   (main.py lines 42-61).

   A directory is modelled as the list of its regular files paired with
   the content `_read_file_safe` yields for them ([] for unreadable or
   empty files); a non-existing root is `none`.  scan_directory returns
   the empty dict for a missing root (it does NOT raise), stores
   `scan_file`'s result only when it is truthy, and swallows per-file
   exceptions (`try ... except: continue`); the /scan route is what
   rejects a missing path, before calling scan_directory. ---------------------------------------------------------------- -/

def scanDirCore (ai ml : List Char → ℚ) (files : List (String × List Char)) :
    List (String × Finding) :=
  files.filterMap (fun pc => (scan_file ai ml pc.2).map (fun f => (pc.1, f)))

def scan_directory (ai ml : List Char → ℚ)
    (root : Option (List (String × List Char))) : List (String × Finding) :=
  match root with
  | none => []
  | some files => scanDirCore ai ml files

/-- Python truthiness test `not x` for an optional string. -/
def pyFalsy : Option String → Bool
  | none => true
  | some s => s = ""

inductive ScanErr
  | invalidInput
  | pathNotFound
deriving DecidableEq

/-- The /scan route (main.py lines 42-61): 400 if rootPath is missing
    or empty, 400 "Path does not exist" if it does not exist, else the
    findings of scan_directory. -/
def scan_endpoint (ai ml : List Char → ℚ) (rootPath : Option String)
    (fs : Option (List (String × List Char))) :
    Except ScanErr (List (String × Finding)) :=
  if pyFalsy rootPath then Except.error ScanErr.invalidInput
  else
    match fs with
    | none => Except.error ScanErr.pathNotFound
    | some files => Except.ok (scan_directory ai ml (some files))

/- ---------------------------------------------------------------
   crypto_utils.py.  The Fernet cipher is an external library; the
   embedding is parametric in the cipher pair `fenc`/`fdec` obtained
   from `get_fernet()` (round-tripping is the library's contract and is
   taken as a hypothesis where needed).  encrypt_str emits the marker
   "<ENC>" immediately followed by the (base64) ciphertext; decrypt_str
   rejects inputs without the marker and strips it before decrypting. ---------------------------------------------------------------- -/

def encMarker : List Char := ("<ENC>").toList

def encrypt_str (fenc : List Char → List Char) (value : List Char) : List Char :=
  encMarker ++ fenc value

def decrypt_str (fdec : List Char → List Char) (p : List Char) :
    Except String (List Char) :=
  if encMarker.isPrefixOf p then Except.ok (fdec (p.drop encMarker.length))
  else Except.error ("Not an encrypted placeholder")

/- ---------------------------------------------------------------
   _encrypt_sensitive_in_text (backup_routes.py lines 171-191).
   Token encryption can raise (key I/O, cipher errors) and is caught
   per token, so it is modelled as `enc : String → Option String` with
   `none` for failure.  Python's `set(tokens)` iterates in an
   unspecified order; the model fixes one deduplication order, and the
   stable sort by descending length matches `sorted(..., key=-len)` up
   to that unspecified tie order. ---------------------------------------------------------------- -/

def collectTokens (hits : List (String × List String)) : List String :=
  hits.flatMap (fun p => p.2.filter (fun v => v ≠ ""))

/-- Descending length, the sort key `-len` of the redaction pass. -/
def byDescLen (a b : String) : Prop := b.length ≤ a.length

instance : DecidableRel byDescLen := fun _ _ => Nat.decLe _ _

instance : IsTotal String byDescLen :=
  ⟨fun a b => Nat.le_total b.length a.length⟩

instance : IsTrans String byDescLen :=
  ⟨fun _ _ _ hab hbc => Nat.le_trans hbc hab⟩

def sortedTokens (hits : List (String × List String)) : List String :=
  List.insertionSort byDescLen (collectTokens hits).dedup

def encStep (enc : String → Option String) (out tok : String) : String :=
  match enc tok with
  | some e => out.replace tok e
  | none => out

def encrypt_sensitive_in_text (enc : String → Option String) (content : String)
    (hits : List (String × List String)) : String :=
  if hits = [] then content
  else (sortedTokens hits).foldl (encStep enc) content

/- ---------------------------------------------------------------
   create_backup (backup_routes.py lines 241-307): input validation in
   source order, then the copy loop.  The model returns the outcome
   together with the list of files copied into the destination tree, so
   that "rejected before any file is copied" is expressible: every
   validation failure pairs with the empty copy list. ---------------------------------------------------------------- -/

inductive BackupErr
  | invalidInput
  | sourceNotFound
  | destinationExists
deriving DecidableEq

def create_backup (source name : Option String) (srcExists dstExists : Bool)
    (files : List String) : Except BackupErr (List String) × List String :=
  if pyFalsy source || pyFalsy name then (Except.error BackupErr.invalidInput, [])
  else if !srcExists then (Except.error BackupErr.sourceNotFound, [])
  else if dstExists then (Except.error BackupErr.destinationExists, [])
  else (Except.ok files, files)

/-- The all-zero context signal (what the code uses when the optional
    AI/ML libraries are not installed). -/
def zq : List Char → ℚ := fun _ => 0

/-- Dictionary lookup `d[k]` on the association-list model of the hits
    dict (keys are unique by construction of `hitsOf`). -/
def lookupKey {α : Type} (n : String) : List (String × α) → Option α
  | [] => none
  | p :: r => if p.1 = n then some p.2 else lookupKey n r

/-- Witness text: the classic Luhn-valid Visa test number. -/
def t41 : List Char := ("4111111111111111").toList

/-- Witness text: a standalone 12-digit number. -/
def t12 : List Char := ("123456789012").toList

/- =================================================================
   Helper lemmas
   ================================================================= -/

theorem scan_file_some (ai ml : List Char → ℚ) (text : List Char) (h : text ≠ []) :
    scan_file ai ml text = some (findingOf ai ml text) := by
  simp [scan_file, h]

theorem scan_file_eq_some (ai ml : List Char → ℚ) {text : List Char} {f : Finding}
    (h : scan_file ai ml text = some f) : text ≠ [] ∧ f = findingOf ai ml text := by
  unfold scan_file at h
  split at h
  · exact absurd h (by simp)
  · exact ⟨by assumption, (Option.some.inj h).symm⟩

theorem findingOf_hits (ai ml : List Char → ℚ) (text : List Char) :
    (findingOf ai ml text).hits = hitsOf text := rfl

theorem risk_label_spec (s : ℤ) :
    (risk_label s = "High" ↔ 70 ≤ s) ∧
    (risk_label s = "Medium" ↔ 35 ≤ s ∧ s < 70) ∧
    (risk_label s = "Low" ↔ s < 35) := by
  unfold risk_label
  split_ifs with h1 h2 <;> refine ⟨?_, ?_, ?_⟩ <;> simp <;> omega

/- =================================================================
   Claim C1 ------------------------------------------------------- -/

/-- Claim C1: for every scanned file whose text is non-empty but in
    which no detector produced any hit, scan_file returns a finding with
    risk_score = 0 and risk_label = "Low", regardless of the computed
    context score (dlp.py lines 257-263 force the safe result). -/
theorem claim_C1_no_hits_low (ai ml : List Char → ℚ) (text : List Char) (f : Finding)
    (_hne : text ≠ []) (hscan : scan_file ai ml text = some f) (hhits : f.hits = []) :
    f.risk_score = 0 ∧ f.risk_label = "Low" := by
  obtain ⟨-, rfl⟩ := scan_file_eq_some ai ml hscan
  have h0 : hitsOf text = [] := hhits
  unfold findingOf
  simp only [h0]
  exact ⟨rfl, rfl⟩

theorem claim_C1_witness :
    (['z', 'z'] : List Char) ≠ [] ∧
    scan_file zq zq ['z', 'z'] = some (findingOf zq zq ['z', 'z']) ∧
    (findingOf zq zq ['z', 'z']).hits = [] ∧
    (findingOf zq zq ['z', 'z']).risk_score = 0 ∧
    (findingOf zq zq ['z', 'z']).risk_label = "Low" :=
  have h1 : (['z', 'z'] : List Char) ≠ [] := by decide
  have h2 : scan_file zq zq ['z', 'z'] = some (findingOf zq zq ['z', 'z']) :=
    scan_file_some zq zq _ h1
  have h3 : (findingOf zq zq ['z', 'z']).hits = [] := by decide
  have h4 := claim_C1_no_hits_low zq zq ['z', 'z'] _ h1 h2 h3
  ⟨h1, h2, h3, h4.1, h4.2⟩

/- =================================================================
   Claim C2 ------------------------------------------------------- -/

/-- Claim C2: compute_risk_score returns
    round((20 × number of detector types + boost) × (1 + contextScore))
    clamped to [0, 100], with boost 0/10/20 for low/medium/high; the
    result is an integer in [0, 100] and risk_label is "High" iff the
    score is at least 70, "Medium" iff it is in [35, 70), and "Low"
    otherwise (dlp.py lines 150-172). -/
theorem claim_C2_risk_formula (hits : List (String × List (List Char)))
    (conf : String) (c : ℚ) :
    confBoost ("low") = 0 ∧ confBoost ("medium") = 10 ∧ confBoost ("high") = 20 ∧
    compute_risk_score hits conf c
      = max 0 (min 100 (pyRound (((20 * (hits.length : ℤ) + confBoost conf : ℤ) : ℚ)
          * (1 + c)))) ∧
    0 ≤ compute_risk_score hits conf c ∧
    compute_risk_score hits conf c ≤ 100 ∧
    (risk_label (compute_risk_score hits conf c) = "High" ↔
      70 ≤ compute_risk_score hits conf c) ∧
    (risk_label (compute_risk_score hits conf c) = "Medium" ↔
      35 ≤ compute_risk_score hits conf c ∧ compute_risk_score hits conf c < 70) ∧
    (risk_label (compute_risk_score hits conf c) = "Low" ↔
      compute_risk_score hits conf c < 35) := by
  refine ⟨by decide, by decide, by decide, rfl, ?_, ?_, (risk_label_spec _).1,
    (risk_label_spec _).2.1, (risk_label_spec _).2.2⟩
  · exact le_max_left 0 _
  · exact max_le (by norm_num) (min_le_left _ _)

/- =================================================================
   Claim C3 ------------------------------------------------------- -/

/-- Claim C3: for every token T, decrypting the placeholder produced by
    encrypting T returns T; encrypt_str emits the marker "<ENC>"
    immediately followed by the ciphertext and decrypt_str strips that
    prefix and decrypts (crypto_utils.py lines 23-42).  The Fernet
    cipher itself is an external library, taken here as any pair
    fenc/fdec satisfying the library's round-trip contract. -/
theorem claim_C3_roundtrip (fenc fdec : List Char → List Char)
    (hinv : ∀ s, fdec (fenc s) = s) (T : List Char) :
    decrypt_str fdec (encrypt_str fenc T) = Except.ok T := by
  unfold decrypt_str encrypt_str
  have hpre : encMarker.isPrefixOf (encMarker ++ fenc T) = true := by
    rw [List.isPrefixOf_iff_prefix]
    exact List.prefix_append _ _
  rw [if_pos hpre, List.drop_left, hinv]

theorem claim_C3_witness :
    decrypt_str id (encrypt_str id (("tok").toList)) = Except.ok (("tok").toList) :=
  claim_C3_roundtrip id id (fun _ => rfl) _

/- =================================================================
   Claim C9 ------------------------------------------------------- -/

/-- Claim C9: create_backup fails with InvalidInput if the source path
    or destination name is missing/empty, with SourceNotFound if the
    source does not exist, and with DestinationExists if a backup of
    that name exists already; each rejection happens before any file is
    copied into the destination tree (the copied-file list is empty)
    (backup_routes.py lines 241-258). -/
theorem claim_C9_validation (source name : Option String) (se de : Bool)
    (files : List String) :
    (pyFalsy source = true ∨ pyFalsy name = true →
      create_backup source name se de files = (Except.error BackupErr.invalidInput, [])) ∧
    (pyFalsy source = false → pyFalsy name = false → se = false →
      create_backup source name se de files = (Except.error BackupErr.sourceNotFound, [])) ∧
    (pyFalsy source = false → pyFalsy name = false → se = true → de = true →
      create_backup source name se de files =
        (Except.error BackupErr.destinationExists, [])) := by
  unfold create_backup
  refine ⟨?_, ?_, ?_⟩
  · rintro (h | h) <;> simp [h]
  · intro h1 h2 h3
    subst h3
    simp [h1, h2]
  · intro h1 h2 h3 h4
    subst h3
    subst h4
    simp [h1, h2]

theorem claim_C9_witness :
    create_backup (some ("s")) (some ("n")) true true [("f")] =
      (Except.error BackupErr.destinationExists, []) :=
  (claim_C9_validation (some ("s")) (some ("n")) true true [("f")]).2.2
    (by decide) (by decide) rfl rfl

/- =================================================================
   Claims C7 and C8 ----------------------------------------------- -/

theorem mem_scanDirCore_iff (ai ml : List Char → ℚ) (files : List (String × List Char))
    (p : String) (f : Finding) :
    (p, f) ∈ scanDirCore ai ml files ↔
      ∃ c, (p, c) ∈ files ∧ c ≠ [] ∧ scan_file ai ml c = some f := by
  unfold scanDirCore
  rw [List.mem_filterMap]
  constructor
  · rintro ⟨⟨q, c⟩, hmem, hmap⟩
    rw [Option.map_eq_some'] at hmap
    obtain ⟨f0, hf0, heq⟩ := hmap
    cases heq
    refine ⟨c, hmem, ?_, hf0⟩
    intro hc
    subst hc
    simp [scan_file] at hf0
  · rintro ⟨c, hmem, _, hf⟩
    exact ⟨(p, c), hmem, by rw [hf]; rfl⟩

/-- Claim C7: the scan operation fails with the path-not-found error
    when the root path does not exist, and otherwise never fails;
    per-file errors are swallowed and the failing file is omitted, and
    scanning an existing empty directory returns an empty result.  The
    existence rejection lives in the /scan route (main.py lines 47-48);
    scan_directory itself (dlp.py lines 282-283) returns the empty dict
    for a missing root, which the second conjunct records. -/
theorem claim_C7_scan (ai ml : List Char → ℚ) (rp : Option String)
    (files : List (String × List Char)) (hrp : pyFalsy rp = false) :
    scan_endpoint ai ml rp none = Except.error ScanErr.pathNotFound ∧
    scan_directory ai ml none = [] ∧
    scan_endpoint ai ml rp (some files) = Except.ok (scanDirCore ai ml files) ∧
    scan_endpoint ai ml rp (some []) = Except.ok [] ∧
    (∀ p f, (p, f) ∈ scanDirCore ai ml files →
      ∃ c, (p, c) ∈ files ∧ c ≠ [] ∧ scan_file ai ml c = some f) := by
  refine ⟨?_, rfl, ?_, ?_, ?_⟩
  · simp [scan_endpoint, hrp]
  · simp [scan_endpoint, hrp, scan_directory]
  · simp [scan_endpoint, hrp, scan_directory, scanDirCore]
  · intro p f h
    exact (mem_scanDirCore_iff ai ml files p f).mp h

theorem claim_C7_witness :
    scan_endpoint zq zq (some ("p")) none = Except.error ScanErr.pathNotFound ∧
    scan_endpoint zq zq (some ("p")) (some []) = Except.ok [] :=
  have h := claim_C7_scan zq zq (some ("p")) [] (by decide)
  ⟨h.1, h.2.2.2.1⟩

/-- Claim C8 is false on the code: scan_file returns a truthy dict for
    every readable file with non-empty text, even when no detector
    matched (its hits are then empty), and scan_directory stores it
    (dlp.py lines 289-291 test the whole dict, not the hits).  The text
    "zz" has no matches, yet its file appears in the scan result with an
    empty hits mapping. -/
theorem claim_C8_counterexample :
    scan_directory zq zq (some [(("f"), ['z', 'z'])])
      = [(("f"), findingOf zq zq ['z', 'z'])] ∧
    (findingOf zq zq ['z', 'z']).hits = [] := by
  constructor
  · simp [scan_directory, scanDirCore, scan_file]
  · decide

/-- Claim C8 (amended): the mapping returned by scan_directory covers
    exactly the files whose safely-read text is non-empty; files with
    empty or unreadable text are omitted, while a readable file in which
    no detector matched is still stored, as a finding with empty hits. -/
theorem claim_C8_amended (ai ml : List Char → ℚ) (files : List (String × List Char))
    (p : String) (f : Finding) :
    (p, f) ∈ scan_directory ai ml (some files) ↔
      ∃ c, (p, c) ∈ files ∧ c ≠ [] ∧ scan_file ai ml c = some f := by
  unfold scan_directory
  exact mem_scanDirCore_iff ai ml files p f

theorem claim_C8_witness :
    (("f"), findingOf zq zq ['z', 'z']) ∈
      scan_directory zq zq (some [(("f"), ['z', 'z'])]) :=
  (claim_C8_amended zq zq [(("f"), ['z', 'z'])] ("f") (findingOf zq zq ['z', 'z'])).mpr
    ⟨['z', 'z'], by decide, by decide, scan_file_some zq zq _ (by decide)⟩

/- =================================================================
   Claim C4 ------------------------------------------------------- -/

/-- Claim C4: the redaction pass collects every matched token across all
    detector hit-lists, deduplicates them, processes them in descending
    order of token length, and for each token performs a global literal
    substring replacement with its encrypted placeholder; a token whose
    encryption fails is skipped (left in place) while the remaining
    tokens are still processed, and the rewrite is a total function
    (backup_routes.py lines 171-191).  The processing order
    `sortedTokens hits` is shown to contain exactly the distinct
    non-empty matched tokens, without duplicates, sorted by descending
    length, and the rewrite is shown to be the fold of the
    replace-or-skip step over that order. -/
theorem claim_C4_redaction (enc : String → Option String) (content : String)
    (hits : List (String × List String)) :
    (∀ t, t ∈ sortedTokens hits ↔ (t ≠ "" ∧ ∃ p, p ∈ hits ∧ t ∈ p.2)) ∧
    (sortedTokens hits).Nodup ∧
    (sortedTokens hits).Sorted byDescLen ∧
    encrypt_sensitive_in_text enc content hits
      = (sortedTokens hits).foldl (encStep enc) content ∧
    (∀ out t, enc t = none → encStep enc out t = out) ∧
    (∀ out t e, enc t = some e → encStep enc out t = out.replace t e) := by
  have hperm := List.perm_insertionSort byDescLen (collectTokens hits).dedup
  refine ⟨?_, ?_, ?_, ?_, ?_, ?_⟩
  · intro t
    unfold sortedTokens
    rw [hperm.mem_iff, List.mem_dedup]
    unfold collectTokens
    rw [List.mem_flatMap]
    constructor
    · rintro ⟨p, hp, ht⟩
      rw [List.mem_filter] at ht
      exact ⟨by simpa using ht.2, p, hp, ht.1⟩
    · rintro ⟨hne2, p, hp, ht⟩
      exact ⟨p, hp, List.mem_filter.mpr ⟨ht, by simpa using hne2⟩⟩
  · exact hperm.nodup_iff.mpr (List.nodup_dedup _)
  · exact List.sorted_insertionSort byDescLen _
  · unfold encrypt_sensitive_in_text
    split_ifs with h
    · subst h
      rfl
    · rfl
  · intro out t h
    simp [encStep, h]
  · intro out t e h
    simp [encStep, h]

theorem claim_C4_witness :
    encStep (fun _ => none) ("out") ("tok") = ("out") ∧
    (sortedTokens [(("email"), [("abcd"), ("abcd")])]).Nodup :=
  ⟨(claim_C4_redaction (fun _ => none) ("x") []).2.2.2.2.1 ("out") ("tok") rfl,
   (claim_C4_redaction (fun _ => none) ("x") [(("email"), [("abcd"), ("abcd")])]).2.1⟩

/- =================================================================
   Claim C6 ------------------------------------------------------- -/

theorem mem_runMatches (lo hi : Nat) (cs : List Char) (s : Nat) (r : List Char) :
    (s, r) ∈ runMatches lo hi cs ↔
      (s, r, true) ∈ digitRuns cs ∧ lo ≤ r.length ∧ r.length ≤ hi := by
  unfold runMatches
  rw [List.mem_filterMap]
  constructor
  · rintro ⟨⟨i, run, ok⟩, he, hcond⟩
    dsimp only at hcond
    split at hcond
    · rename_i hb
      simp only [Bool.and_eq_true, decide_eq_true_eq] at hb
      cases hcond
      exact ⟨by rw [hb.1.1] at he; exact he, hb.1.2, hb.2⟩
    · exact absurd hcond (by simp)
  · rintro ⟨he, h1, h2⟩
    exact ⟨(s, r, true), he, by simp [h1, h2]⟩

/-- Claim C6: the CVV detector accepts a 3-4-digit run as a hit only if
    the lowercased 10-character window around the match contains "cvv"
    or "card"; on the isolated text "4321" it yields no CVV hit, and on
    "cvv: 432" it yields the hit "432" (dlp.py lines 220-231). -/
theorem claim_C6_cvv :
    (∀ text s r, (s, r) ∈ cvvDet text →
       (s, r) ∈ cvvAll text ∧ 3 ≤ r.length ∧ r.length ≤ 4 ∧
       cvvWindowOK text s (s + r.length) = true) ∧
    cvvDet (("4321").toList) = [] ∧
    (cvvDet (("cvv: 432").toList)).map (fun m => m.2) = [['4', '3', '2']] := by
  refine ⟨?_, by decide, by decide⟩
  · intro text s r hm
    unfold cvvDet at hm
    have h := List.mem_filter.mp hm
    have hlen := (mem_runMatches 3 4 text s r).mp h.1
    exact ⟨h.1, hlen.2.1, hlen.2.2, h.2⟩

theorem claim_C6_witness :
    (5, ['4', '3', '2']) ∈ cvvAll (("cvv: 432").toList) ∧
    3 ≤ (['4', '3', '2'] : List Char).length ∧
    (['4', '3', '2'] : List Char).length ≤ 4 ∧
    cvvWindowOK (("cvv: 432").toList) 5 (5 + (['4', '3', '2'] : List Char).length) = true :=
  claim_C6_cvv.1 (("cvv: 432").toList) 5 ['4', '3', '2'] (by decide)

/- =================================================================
   Lookup lemmas for the hits mapping ----------------------------- -/

theorem lookupKey_hitBlock_ne (m n : String) (ts : List (List Char))
    (rest : List (String × List (List Char))) (h : m ≠ n) :
    lookupKey n (hitBlock m ts ++ rest) = lookupKey n rest := by
  unfold hitBlock
  split
  · rw [List.nil_append]
  · simp [lookupKey, h]

theorem lookupKey_hitBlock_ne_nil (m n : String) (ts : List (List Char)) (h : m ≠ n) :
    lookupKey n (hitBlock m ts) = none := by
  unfold hitBlock
  split
  · rfl
  · simp [lookupKey, h]

theorem lookupKey_hitBlock_head (n : String) (ts : List (List Char))
    (rest : List (String × List (List Char))) :
    lookupKey n (hitBlock n ts ++ rest)
      = if ts = [] then lookupKey n rest else some ts := by
  unfold hitBlock
  split_ifs with h
  · rw [List.nil_append]
  · simp [lookupKey]

theorem lookupKey_hitBlock_head_nil (n : String) (ts : List (List Char)) :
    lookupKey n (hitBlock n ts) = if ts = [] then none else some ts := by
  unfold hitBlock
  split_ifs with h
  · rfl
  · simp [lookupKey]

theorem lookup_hitsOf_aadhaar (text : List Char) :
    lookupKey ("aadhaar") (hitsOf text)
      = if aadhaarToks text = [] then none else some (aadhaarToks text) := by
  unfold hitsOf
  simp only [List.append_assoc]
  rw [lookupKey_hitBlock_head]
  split_ifs with h
  · rw [lookupKey_hitBlock_ne ("pan") _ _ _ (by decide),
        lookupKey_hitBlock_ne ("email") _ _ _ (by decide),
        lookupKey_hitBlock_ne ("phone") _ _ _ (by decide),
        lookupKey_hitBlock_ne ("passport") _ _ _ (by decide),
        lookupKey_hitBlock_ne ("password") _ _ _ (by decide),
        lookupKey_hitBlock_ne ("bank_account") _ _ _ (by decide),
        lookupKey_hitBlock_ne ("ifsc") _ _ _ (by decide),
        lookupKey_hitBlock_ne ("cvv") _ _ _ (by decide),
        lookupKey_hitBlock_ne_nil ("credit_card") _ _ (by decide)]
  · rfl

theorem lookup_hitsOf_bank (text : List Char) :
    lookupKey ("bank_account") (hitsOf text)
      = if bankToks text = [] then none else some (bankToks text) := by
  unfold hitsOf
  simp only [List.append_assoc]
  rw [lookupKey_hitBlock_ne ("aadhaar") _ _ _ (by decide),
      lookupKey_hitBlock_ne ("pan") _ _ _ (by decide),
      lookupKey_hitBlock_ne ("email") _ _ _ (by decide),
      lookupKey_hitBlock_ne ("phone") _ _ _ (by decide),
      lookupKey_hitBlock_ne ("passport") _ _ _ (by decide),
      lookupKey_hitBlock_ne ("password") _ _ _ (by decide),
      lookupKey_hitBlock_head]
  split_ifs with h
  · rw [lookupKey_hitBlock_ne ("ifsc") _ _ _ (by decide),
        lookupKey_hitBlock_ne ("cvv") _ _ _ (by decide),
        lookupKey_hitBlock_ne_nil ("credit_card") _ _ (by decide)]
  · rfl

theorem lookup_hitsOf_cc (text : List Char) :
    lookupKey ("credit_card") (hitsOf text)
      = if ccToks text = [] then none else some (ccToks text) := by
  unfold hitsOf
  simp only [List.append_assoc]
  rw [lookupKey_hitBlock_ne ("aadhaar") _ _ _ (by decide),
      lookupKey_hitBlock_ne ("pan") _ _ _ (by decide),
      lookupKey_hitBlock_ne ("email") _ _ _ (by decide),
      lookupKey_hitBlock_ne ("phone") _ _ _ (by decide),
      lookupKey_hitBlock_ne ("passport") _ _ _ (by decide),
      lookupKey_hitBlock_ne ("password") _ _ _ (by decide),
      lookupKey_hitBlock_ne ("bank_account") _ _ _ (by decide),
      lookupKey_hitBlock_ne ("ifsc") _ _ _ (by decide),
      lookupKey_hitBlock_ne ("cvv") _ _ _ (by decide),
      lookupKey_hitBlock_head_nil]

/- =================================================================
   Claim C10 ------------------------------------------------------ -/

theorem aadhaar_tok_in_bank (text : List Char) (t : List Char)
    (h : t ∈ aadhaarToks text) : t ∈ bankToks text := by
  unfold aadhaarToks aadhaarDet at h
  rw [List.mem_map] at h
  obtain ⟨⟨s, r⟩, hm, rfl⟩ := h
  have h2 := (mem_runMatches 12 12 text s r).mp hm
  unfold bankToks bankDet
  rw [List.mem_map]
  exact ⟨(s, r), (mem_runMatches 9 18 text s r).mpr ⟨h2.1, by omega, by omega⟩, rfl⟩

theorem hitsOf_length_ge_two (text : List Char) (ha : aadhaarToks text ≠ [])
    (hb : bankToks text ≠ []) : 2 ≤ (hitsOf text).length := by
  unfold hitsOf
  simp only [List.length_append]
  have l1 : (hitBlock ("aadhaar") (aadhaarToks text)).length = 1 := by
    unfold hitBlock
    rw [if_neg ha]
    rfl
  have l7 : (hitBlock ("bank_account") (bankToks text)).length = 1 := by
    unfold hitBlock
    rw [if_neg hb]
    rfl
  omega

/-- Claim C10: every standalone 12-digit run matched by the aadhaar
    detector is also matched by the bank-account detector (same word
    boundaries, 9-18-digit range), so every finding containing an
    "aadhaar" hit also contains a "bank_account" hit for the same token,
    and the distinct-detector-type count used as the risk base counts
    that single number at least twice (dlp.py lines 31, 43, 185-211). -/
theorem claim_C10_aadhaar_bank (ai ml : List Char → ℚ) (text : List Char) (f : Finding)
    (l : List (List Char)) (t : List Char)
    (hscan : scan_file ai ml text = some f)
    (hl : lookupKey ("aadhaar") f.hits = some l) (ht : t ∈ l) :
    (∃ bl, lookupKey ("bank_account") f.hits = some bl ∧ t ∈ bl) ∧
    2 ≤ f.hits.length := by
  obtain ⟨-, rfl⟩ := scan_file_eq_some ai ml hscan
  rw [findingOf_hits] at hl ⊢
  rw [lookup_hitsOf_aadhaar] at hl
  by_cases h : aadhaarToks text = []
  · rw [if_pos h] at hl
    exact absurd hl (by simp)
  · rw [if_neg h] at hl
    have hle : aadhaarToks text = l := Option.some.inj hl
    subst hle
    have htb := aadhaar_tok_in_bank text t ht
    have hbne : bankToks text ≠ [] := by
      intro h0
      rw [h0] at htb
      exact absurd htb (by simp)
    have hane : aadhaarToks text ≠ [] := by
      intro h0
      rw [h0] at ht
      exact absurd ht (by simp)
    refine ⟨⟨bankToks text, ?_, htb⟩, hitsOf_length_ge_two text hane hbne⟩
    rw [lookup_hitsOf_bank, if_neg hbne]

theorem claim_C10_witness :
    (∃ bl, lookupKey ("bank_account") (findingOf zq zq t12).hits = some bl ∧ t12 ∈ bl) ∧
    2 ≤ (findingOf zq zq t12).hits.length :=
  claim_C10_aadhaar_bank zq zq t12 (findingOf zq zq t12) [t12] t12
    (scan_file_some zq zq t12 (by decide)) (by decide) (by decide)

/- =================================================================
   Claim C5 ------------------------------------------------------- -/

/-- Every token a `scanGo` scan emits originates from a successful
    `tryAt` attempt. -/
theorem scanGo_tok (tryAt : Option Char → List Char → Option (Nat × List Char)) :
    ∀ (u : List Char) (skip : Nat) (prev : Option Char) (i s e : Nat) (tok : List Char),
      (s, e, tok) ∈ scanGo tryAt skip prev i u →
      ∃ pv w n, tryAt pv w = some (n, tok) := by
  intro u
  induction u with
  | nil =>
    intro skip prev i s e tok h
    cases skip <;> simp [scanGo] at h
  | cons c rest ih =>
    intro skip prev i s e tok h
    cases skip with
    | succ k =>
      exact ih k (some c) (i + 1) s e tok (by simpa [scanGo] using h)
    | zero =>
      cases htry : tryAt prev (c :: rest) with
      | none =>
        rw [scanGo, htry] at h
        exact ih 0 (some c) (i + 1) s e tok h
      | some p =>
        rw [scanGo, htry] at h
        rcases List.mem_cons.mp h with h1 | h1
        · refine ⟨prev, c :: rest, p.1, ?_⟩
          have : tok = p.2 := congrArg (fun q => q.2.2) h1
          rw [this, htry]
        · exact ih (max 1 p.1 - 1) (some c) (i + 1) s e tok h1

/-- `ccNeedDigits n` returns exactly `n` characters, all digits. -/
theorem ccNeedDigits_spec :
    ∀ (n : Nat) (u ds suf : List Char), ccNeedDigits n u = some (ds, suf) →
      ds.length = n ∧ ∀ c ∈ ds, isDigitCh c = true := by
  intro n
  induction n with
  | zero =>
    intro u ds suf h
    simp only [ccNeedDigits, Option.some.injEq, Prod.mk.injEq] at h
    rw [← h.1]
    exact ⟨rfl, by simp⟩
  | succ k ih =>
    intro u ds suf h
    unfold ccNeedDigits at h
    split at h
    · exact absurd h (by simp)
    · rename_i c2 v2 heq2
      split at h
      · rename_i hdig2
        rw [Option.map_eq_some'] at h
        obtain ⟨q, h1, h2⟩ := h
        obtain ⟨ds0, suf0⟩ := q
        have h3 : c2 :: ds0 = ds := congrArg Prod.fst h2
        have h4 : suf0 = suf := congrArg Prod.snd h2
        subst h4
        obtain ⟨hlen, hall⟩ := ih v2 ds0 suf0 h1
        rw [← h3]
        refine ⟨by simp [hlen], ?_⟩
        intro x hx
        rcases List.mem_cons.mp hx with rfl | hx2
        · exact hdig2
        · exact hall x hx2
      · exact absurd h (by simp)

/-- A successful credit-card match attempt produces a token of 13-19
    digits (the separator-stripped candidate). -/
theorem ccTryAt_spec (pv : Option Char) (u : List Char) (n : Nat) (tok : List Char)
    (h : ccTryAt pv u = some (n, tok)) :
    (∀ c ∈ tok, isDigitCh c = true) ∧ 13 ≤ tok.length ∧ tok.length ≤ 19 := by
  unfold ccTryAt at h
  split at h
  · cases hnd : ccNeedDigits 13 u with
    | none =>
      rw [hnd] at h
      simp at h
    | some p =>
      obtain ⟨ds, suf⟩ := p
      rw [hnd] at h
      dsimp only at h
      split at h
      · have htok : ds ++ (suf.takeWhile isDigitCh).take
            (min 6 (suf.takeWhile isDigitCh).length) = tok := by
          have := (Option.some.inj h)
          exact congrArg Prod.snd this
        obtain ⟨hlen, hdig⟩ := ccNeedDigits_spec 13 u ds suf hnd
        rw [← htok]
        refine ⟨?_, ?_, ?_⟩
        · intro c hc
          rcases List.mem_append.mp hc with hc1 | hc1
          · exact hdig c hc1
          · exact List.mem_takeWhile_imp (List.mem_of_mem_take hc1)
        · rw [List.length_append, hlen]
          omega
        · rw [List.length_append, hlen, List.length_take]
          omega
      · simp at h
  · simp at h

/-- Every token under the "credit_card" key is Luhn-valid, consists
    only of digits, and has 13-19 of them. -/
theorem ccToks_spec (text : List Char) (t : List Char) (h : t ∈ ccToks text) :
    luhn_check t = true ∧ (∀ c ∈ t, isDigitCh c = true) ∧
    13 ≤ t.length ∧ t.length ≤ 19 := by
  unfold ccToks at h
  rw [List.mem_map] at h
  obtain ⟨⟨s, e0, tok⟩, hm, rfl⟩ := h
  unfold ccDet at hm
  have hf := List.mem_filter.mp hm
  have hluhn : luhn_check tok = true := hf.2
  have hmem : (s, e0, tok) ∈ scanGo ccTryAt 0 none 0 text := hf.1
  obtain ⟨pv, w, n, htry⟩ := scanGo_tok ccTryAt text 0 none 0 s e0 tok hmem
  have hspec := ccTryAt_spec pv w n tok htry
  exact ⟨hluhn, hspec.1, hspec.2.1, hspec.2.2⟩

/-- Claim C5: the credit-card detector never emits a token failing the
    Luhn checksum: every hit stored under "credit_card" is a Luhn-valid
    candidate of 13-19 digits stored with separators stripped (dlp.py
    lines 58-70, 234-245); in particular, scanning the text
    "4111111111111111" yields exactly that digit string as the
    credit_card hit. -/
theorem claim_C5_credit_card :
    (∀ (ai ml : List Char → ℚ) (text : List Char) (f : Finding)
       (l : List (List Char)) (t : List Char),
       scan_file ai ml text = some f →
       lookupKey ("credit_card") f.hits = some l → t ∈ l →
       luhn_check t = true ∧ (∀ c ∈ t, isDigitCh c = true) ∧
       13 ≤ t.length ∧ t.length ≤ 19) ∧
    scan_file zq zq t41 = some (findingOf zq zq t41) ∧
    lookupKey ("credit_card") (findingOf zq zq t41).hits = some [t41] := by
  refine ⟨?_, scan_file_some zq zq t41 (by decide), by decide⟩
  intro ai ml text f l t hscan hl ht
  obtain ⟨-, rfl⟩ := scan_file_eq_some ai ml hscan
  rw [findingOf_hits, lookup_hitsOf_cc] at hl
  by_cases h : ccToks text = []
  · rw [if_pos h] at hl
    exact absurd hl (by simp)
  · rw [if_neg h] at hl
    have hle : ccToks text = l := Option.some.inj hl
    subst hle
    exact ccToks_spec text t ht

theorem claim_C5_witness :
    luhn_check t41 = true ∧ (∀ c ∈ t41, isDigitCh c = true) ∧
    13 ≤ t41.length ∧ t41.length ≤ 19 :=
  claim_C5_credit_card.1 zq zq t41 (findingOf zq zq t41) [t41] t41
    (scan_file_some zq zq t41 (by decide)) (by decide) (by decide)

end DLP
